import Mathlib

/-!
Verification of the RAG (retrieval-augmented generation) subsystem of the
cogbase repository: document chunking (`chunkText`), the placeholder
character-frequency embedder (`createSimpleEmbedding`), cosine-similarity
scoring (`cosineSimilarity`), the retrieval pipeline
(`retrieveRelevantContext`) and the indexing pipeline
(`processDocumentForRAG`), together with the storage layer they use
(`src/server/db.ts`), shallowly embedded in Lean.

Modelling conventions:
* JavaScript strings are sequences of UTF-16 code units, modelled as
  `List Nat`.
* JavaScript numbers are modelled as real numbers, with `Math.sqrt` as
  `Real.sqrt`; the one place where an IEEE non-finite value can arise in
  this code (division) is modelled explicitly by `JSFloat`, which adjoins
  `nan` and signed infinities to `ℝ`.
* Fallible/stateful storage code is modelled by explicit state passing over
  `DBState` and `Except Err`.
-/

/-- A JavaScript number as produced by a division: either an ordinary real,
an infinity, or `NaN`.  The rest of the arithmetic in the embedded code
(sums, products, square roots of non-negative reals) stays inside `ℝ`. -/
inductive JSFloat where
  | nan : JSFloat
  | inf (pos : Bool) : JSFloat
  | real (x : ℝ) : JSFloat

open Classical in
/-- JavaScript division `x / y` on reals: division by zero yields `NaN`
when the numerator is also zero and a signed infinity otherwise. -/
noncomputable def jsDiv (x y : ℝ) : JSFloat :=
  if y = 0 then
    (if x = 0 then JSFloat.nan else JSFloat.inf (decide (0 < x)))
  else JSFloat.real (x / y)

open Classical in
/-- JavaScript comparison `s >= t` where `s` may be `NaN` or infinite:
`NaN >= t` is false, `Infinity >= t` is true, `-Infinity >= t` is false. -/
noncomputable def jsGeB (s : JSFloat) (t : ℝ) : Bool :=
  match s with
  | JSFloat.nan => false
  | JSFloat.inf pos => pos
  | JSFloat.real x => decide (t ≤ x)

/-- Numeric view of a score used by the sort comparator.  In the retrieval
pipeline every score that reaches the sort is an ordinary real (NaN scores
are removed by the threshold filter and this code never produces
infinities), so the values chosen for `nan`/`inf` are never relevant there. -/
def JSFloat.toR : JSFloat → ℝ
  | JSFloat.nan => 0
  | JSFloat.inf _ => 0
  | JSFloat.real x => x

/-- Cosine similarity from `src/server/rag.ts` (`cosineSimilarity`):
returns 0 on length mismatch, otherwise `dot / (sqrt normA * sqrt normB)`
with JavaScript division semantics.  The index loop `for i < a.length`
over two equal-length arrays is rendered with `zip`/`map` sums. -/
noncomputable def cosineSimilarity (a b : List ℝ) : JSFloat :=
  if a.length ≠ b.length then JSFloat.real 0
  else
    jsDiv (((a.zip b).map fun p => p.1 * p.2).sum)
      (Real.sqrt ((a.map fun v => v * v).sum) *
        Real.sqrt ((b.map fun v => v * v).sum))

/-- A JavaScript string, as a list of UTF-16 code units. -/
def JSStr : Type := List Nat
deriving DecidableEq

/-- Lowercasing of one code unit, modelling `String.prototype.toLowerCase`
on the ASCII fragment (`A`-`Z` map to `a`-`z`, everything else is fixed);
the claims about the embedder concern letter case only. -/
def jsToLowerCU (c : Nat) : Nat :=
  if 65 ≤ c ∧ c ≤ 90 then c + 32 else c

/-- Lowercasing of a whole string (unit-wise on the ASCII fragment). -/
def jsToLower (t : JSStr) : JSStr :=
  List.map jsToLowerCU t

/-- The 128-bucket character-frequency histogram built by the loop
`for i < normalized.length: embedding[charCode % 128] += 1` starting from
`new Array(128).fill(0)`. -/
def charHistogram (units : List Nat) : List ℝ :=
  units.foldl
    (fun acc c => acc.set (c % 128) ((acc.getD (c % 128) 0) + 1))
    (List.replicate 128 (0 : ℝ))

open Classical in
/-- The placeholder embedder from `src/server/rag.ts`
(`createSimpleEmbedding`): histogram of the lowercased text, then division
of every bucket by the Euclidean magnitude when that magnitude is positive
(each bucket is mapped to 0 otherwise). -/
noncomputable def createSimpleEmbedding (text : JSStr) : List ℝ :=
  let embedding := charHistogram (jsToLower text)
  let magnitude := Real.sqrt ((embedding.foldl (fun sum val => sum + val * val) 0))
  embedding.map fun val => if 0 < magnitude then val / magnitude else 0

/-- One step list length fact: `List.set` preserves length, so the
histogram always has 128 buckets. -/
theorem charHistogram_length (units : List Nat) :
    (charHistogram units).length = 128 := by
  suffices h : ∀ (l : List ℝ) (us : List Nat),
      (us.foldl
        (fun acc c => acc.set (c % 128) ((acc.getD (c % 128) 0) + 1)) l).length
        = l.length by
    simpa [charHistogram] using h (List.replicate 128 (0 : ℝ)) units
  intro l us
  induction us generalizing l with
  | nil => rfl
  | cons c us ih => rw [List.foldl_cons, ih, List.length_set]

/-- The embedder always outputs a 128-dimensional vector. -/
theorem createSimpleEmbedding_length (text : JSStr) :
    (createSimpleEmbedding text).length = 128 := by
  simp [createSimpleEmbedding, charHistogram_length]

/-- The chunker from `src/server/rag.ts` (`chunkText`), as a recursion on
the running `start` offset.  Each pass emits `text.slice(start, end)` with
`end = min (start + chunkSize) text.length`; the loop stops when the next
start `end - overlap` fails to advance past `start` or when `end` reaches
the end of the text.  Natural-number subtraction truncates at zero exactly
as the negative JavaScript value would fail the `nextStart <= start` test.
Generic in the element type; the repository applies it to strings. -/
def chunkTextAux (text : List α) (chunkSize overlap start : Nat) :
    List (List α) :=
  if h : start < text.length then
    -- e = min (start + chunkSize) text.length, chunk = text.slice(start, e),
    -- nextStart = e - overlap
    if hb : min (start + chunkSize) text.length - overlap ≤ start ∨
        text.length ≤ min (start + chunkSize) text.length then
      [(text.drop start).take (min (start + chunkSize) text.length - start)]
    else
      (text.drop start).take (min (start + chunkSize) text.length - start) ::
        chunkTextAux text chunkSize overlap
          (min (start + chunkSize) text.length - overlap)
  else []
termination_by text.length - start
decreasing_by
  push_neg at hb
  omega

/-- Entry point of the chunker: `chunkText(text, chunkSize, overlap)`
starts the sliding window at offset 0. -/
def chunkText (text : List α) (chunkSize overlap : Nat) : List (List α) :=
  chunkTextAux text chunkSize overlap 0

/-! ## Storage model (`src/server/db.ts`)

The MySQL tables behind the drizzle schema are modelled as lists of rows
inside a `DBState`.  Each exported function of `db.ts` is one atomic
operation on that state.  A call can fail in two ways, both taken from the
code and its runtime: `getDb()` can yield no handle (the code's explicit
`if (!db)` branches), and the awaited driver query can reject.  A schedule
of `FaultKind`s inside the state, consumed one entry per storage call
(missing entries mean a healthy call), injects those failures. -/

/-- A row of the `trainingDocuments` table (the fields the RAG code uses). -/
structure DocRow where
  id : Nat
  agentId : Nat
  userId : Nat
  content : JSStr
  status : String
  chunkCount : Int
  createdAt : Nat

/-- A row of the `vectorEmbeddings` table.  The JSON `embedding` column is
`none` when it holds `null` or a non-array value (the retriever's
`!embedding.embedding || !Array.isArray(...)` test) and `some v` when it
holds an array of numbers. -/
structure EmbedRow where
  id : Nat
  documentId : Nat
  agentId : Nat
  chunkIndex : Nat
  content : JSStr
  embedding : Option (List ℝ)
  createdAt : Nat

/-- A row of the `ragConfigurations` table.  The nullable numeric columns
are `Option`s; `similarityThreshold` is a `decimal(3,2)` column whose value
round-trips through `parseFloat`, modelled by the rational it stores. -/
structure ConfigRow where
  id : Nat
  agentId : Nat
  enabled : Int
  chunkSize : Option Int
  chunkOverlap : Option Int
  topK : Option Int
  similarityThreshold : Option ℚ

/-- Outcome injected for one storage call: healthy, `getDb()` returning no
handle, or the awaited driver query rejecting. -/
inductive FaultKind where
  | ok : FaultKind
  | noDb : FaultKind
  | reject : FaultKind
deriving DecidableEq

/-- Errors a storage call can throw: the code's own
`new Error("Database not available")`, or a driver rejection. -/
inductive Err where
  | dbUnavailable : Err
  | driver : Err
deriving DecidableEq

/-- The storage state: table contents, an id/time counter for inserted
rows, and the fault schedule. -/
structure DBState where
  docs : List DocRow
  embeds : List EmbedRow
  configs : List ConfigRow
  nextId : Nat
  now : Nat
  faults : List FaultKind

/-- State after one entry of the fault schedule has been consumed. -/
def popState (s : DBState) : DBState :=
  { s with faults := s.faults.tail }

/-- Outcome of the next storage call (healthy when the schedule is
exhausted). -/
def nextFault (s : DBState) : FaultKind :=
  s.faults.headD FaultKind.ok

/-- Stable insertion of `x` into `l`: `x` is placed before the first
element `y` with `le x y`.  Used to model both the SQL `ORDER BY` of the
per-agent scan and `Array.prototype.sort`, whose contract (ECMA-262) for a
consistent comparator is exactly "sorted and stable". -/
def insertStable (le : α → α → Bool) (x : α) : List α → List α
  | [] => [x]
  | y :: ys => if le x y then x :: y :: ys else y :: insertStable le x ys

/-- Stable sort by repeated insertion (`foldr` keeps earlier elements in
front of later ties). -/
def sortStable (le : α → α → Bool) (l : List α) : List α :=
  l.foldr (insertStable le) []

/-- Fields of an `InsertVectorEmbedding` record (id and `createdAt` are
assigned by the database). -/
structure InsertEmbed where
  documentId : Nat
  agentId : Nat
  chunkIndex : Nat
  content : JSStr
  embedding : Option (List ℝ)

/-- A `Partial<InsertTrainingDocument>` as used by the RAG code: an
optional new status and an optional new chunk count. -/
structure DocUpdate where
  status : Option String
  chunkCount : Option Int

/-- db.ts `getOrCreateRagConfig`: throws when no handle, returns the
agent's config row when present, otherwise inserts one with the schema
defaults (`enabled 1, chunkSize 512, chunkOverlap 50, topK 3,
similarityThreshold 0.7`) and returns it. -/
def getOrCreateRagConfig (agentId : Nat) (s : DBState) :
    Except Err ConfigRow × DBState :=
  match nextFault s, popState s with
  | FaultKind.noDb, s' => (Except.error Err.dbUnavailable, s')
  | FaultKind.reject, s' => (Except.error Err.driver, s')
  | FaultKind.ok, s' =>
    match s'.configs.find? (fun c => c.agentId == agentId) with
    | some c => (Except.ok c, s')
    | none =>
      let c : ConfigRow :=
        { id := s'.nextId, agentId := agentId, enabled := 1,
          chunkSize := some 512, chunkOverlap := some 50, topK := some 3,
          similarityThreshold := some (7 / 10) }
      (Except.ok c,
        { s' with configs := s'.configs ++ [c], nextId := s'.nextId + 1,
                  now := s'.now + 1 })

/-- db.ts `getVectorEmbeddingsByAgentId`: returns `[]` when no handle,
otherwise the agent's rows ordered by `createdAt` descending (ties keep
table order, i.e. insertion order). -/
def getVectorEmbeddingsByAgentId (agentId : Nat) (s : DBState) :
    Except Err (List EmbedRow) × DBState :=
  match nextFault s, popState s with
  | FaultKind.noDb, s' => (Except.ok [], s')
  | FaultKind.reject, s' => (Except.error Err.driver, s')
  | FaultKind.ok, s' =>
    (Except.ok
      (sortStable (fun a b => decide (b.createdAt ≤ a.createdAt))
        (s'.embeds.filter (fun e => e.agentId == agentId))), s')

/-- db.ts `createVectorEmbedding`: throws when no handle, otherwise
appends the row with a fresh id and the current creation time and returns
it. -/
def createVectorEmbedding (r : InsertEmbed) (s : DBState) :
    Except Err EmbedRow × DBState :=
  match nextFault s, popState s with
  | FaultKind.noDb, s' => (Except.error Err.dbUnavailable, s')
  | FaultKind.reject, s' => (Except.error Err.driver, s')
  | FaultKind.ok, s' =>
    let row : EmbedRow :=
      { id := s'.nextId, documentId := r.documentId, agentId := r.agentId,
        chunkIndex := r.chunkIndex, content := r.content,
        embedding := r.embedding, createdAt := s'.now }
    (Except.ok row,
      { s' with embeds := s'.embeds ++ [row], nextId := s'.nextId + 1,
                now := s'.now + 1 })

/-- The `SET` clause of db.ts `updateTrainingDocument`, applied to one
row: rows with the matching id receive the partial update. -/
def applyDocUpdate (id : Nat) (u : DocUpdate) (d : DocRow) : DocRow :=
  if d.id = id then
    { d with status := u.status.getD d.status,
             chunkCount := u.chunkCount.getD d.chunkCount }
  else d

/-- db.ts `updateTrainingDocument`: returns `undefined` (here `none`)
without writing when no handle, otherwise applies the partial update to
every row with the given id and returns the first such row. -/
def updateTrainingDocument (id : Nat) (u : DocUpdate) (s : DBState) :
    Except Err (Option DocRow) × DBState :=
  match nextFault s, popState s with
  | FaultKind.noDb, s' => (Except.ok none, s')
  | FaultKind.reject, s' => (Except.error Err.driver, s')
  | FaultKind.ok, s' =>
    let docs := s'.docs.map (applyDocUpdate id u)
    (Except.ok (docs.find? (fun d => d.id == id)), { s' with docs := docs })

/-- db.ts `deleteTrainingDocument`: returns without writing when no
handle, otherwise deletes the document rows matching both the id and the
user id.  It touches no other table. -/
def deleteTrainingDocument (id userId : Nat) (s : DBState) :
    Except Err Unit × DBState :=
  match nextFault s, popState s with
  | FaultKind.noDb, s' => (Except.ok (), s')
  | FaultKind.reject, s' => (Except.error Err.driver, s')
  | FaultKind.ok, s' =>
    (Except.ok (),
      { s' with docs :=
          s'.docs.filter (fun d => !(d.id == id && d.userId == userId)) })

/-- db.ts `deleteVectorEmbeddingsByDocumentId`: returns without writing
when no handle, otherwise deletes the document's embedding rows.  (No code
in the repository calls it.) -/
def deleteVectorEmbeddingsByDocumentId (documentId : Nat) (s : DBState) :
    Except Err Unit × DBState :=
  match nextFault s, popState s with
  | FaultKind.noDb, s' => (Except.ok (), s')
  | FaultKind.reject, s' => (Except.error Err.driver, s')
  | FaultKind.ok, s' =>
    (Except.ok (),
      { s' with embeds :=
          s'.embeds.filter (fun e => !(e.documentId == documentId)) })

/-! ## The retrieval pipeline (`retrieveRelevantContext`) -/

/-- An embedding row paired with its similarity score, the element type of
the retriever's `scoredEmbeddings` array. -/
structure Scored where
  row : EmbedRow
  score : JSFloat

/-- The retriever's per-row `map` step: a missing or non-array `embedding`
column scores 0, otherwise the cosine similarity with the query vector. -/
noncomputable def scoreRow (queryEmbedding : List ℝ) (e : EmbedRow) : Scored :=
  match e.embedding with
  | none => { row := e, score := JSFloat.real 0 }
  | some v => { row := e, score := cosineSimilarity queryEmbedding v }

/-- The retriever's `parseFloat(config.similarityThreshold || "0.7")`: a
NULL column falls back to 0.7, otherwise the stored decimal's value. -/
noncomputable def thresholdOf (cfg : ConfigRow) : ℝ :=
  match cfg.similarityThreshold with
  | none => (7 : ℝ) / 10
  | some q => (q : ℝ)

/-- JavaScript `v || d` on a nullable integer column: NULL and 0 are falsy
and fall back to the default. -/
def jsOrZ (v : Option Int) (d : Int) : Int :=
  match v with
  | none => d
  | some x => if x = 0 then d else x

/-- JavaScript `array.slice(0, k)`: a non-negative `k` keeps the first `k`
elements, a negative `k` counts from the end of the array. -/
def jsSliceTo (k : Int) (l : List α) : List α :=
  if 0 ≤ k then l.take k.toNat else l.take (l.length - (-k).toNat)

/-- Comparator of the retriever's `.sort((a, b) => b.score - a.score)`:
`a` stays before `b` exactly when `b.score <= a.score` (descending order,
ties keep input order under a stable sort). -/
noncomputable def scoreDescB (a b : Scored) : Bool :=
  decide (b.score.toR ≤ a.score.toR)

/-- The retriever's `map`/`filter`/`sort`/`slice` chain building
`scoredEmbeddings` from the scanned rows (`src/server/rag.ts` lines
89-103). -/
noncomputable def selectedChunks (cfg : ConfigRow) (query : JSStr)
    (embeds : List EmbedRow) : List Scored :=
  let queryEmbedding := createSimpleEmbedding query
  let scored := embeds.map (scoreRow queryEmbedding)
  let filtered := scored.filter fun it => jsGeB it.score (thresholdOf cfg)
  jsSliceTo (jsOrZ cfg.topK 3) (sortStable scoreDescB filtered)

/-- rag.ts `retrieveRelevantContext`: load the config (created with
defaults when absent), return `null` when RAG is disabled, scan the
agent's chunks, score/filter/sort/slice them and join the surviving
contents with a blank line.  The enclosing `try`/`catch` turns EVERY
thrown error into a logged `null` return, so the function never
propagates an error. -/
noncomputable def retrieveRelevantContext (agentId : Nat) (query : JSStr)
    (s : DBState) : Except Err (Option JSStr) × DBState :=
  match getOrCreateRagConfig agentId s with
  | (Except.error _, s1) => (Except.ok none, s1)
  | (Except.ok cfg, s1) =>
    if cfg.enabled ≠ 1 then (Except.ok none, s1)
    else
      match getVectorEmbeddingsByAgentId agentId s1 with
      | (Except.error _, s2) => (Except.ok none, s2)
      | (Except.ok embeds, s2) =>
        if embeds.length = 0 then (Except.ok none, s2)
        else
          let picked := selectedChunks cfg query embeds
          if picked.length = 0 then (Except.ok none, s2)
          else
            (Except.ok (some (List.intercalate [10, 10]
              (picked.map fun it => it.row.content))), s2)

/-! ## The indexing pipeline (`processDocumentForRAG`) -/

/-- Partial update setting only the document status. -/
def docUpdateStatus (st : String) : DocUpdate :=
  { status := some st, chunkCount := none }

/-- Partial update setting status `completed` and the chunk count. -/
def docUpdateCompleted (n : Nat) : DocUpdate :=
  { status := some "completed", chunkCount := some (n : Int) }

/-- The indexer's per-chunk loop: embed each chunk and persist it with its
index via `createVectorEmbedding`, stopping at the first thrown error. -/
noncomputable def writeChunks (documentId agentId : Nat)
    (chunks : List JSStr) (i : Nat) (s : DBState) :
    Except Err Unit × DBState :=
  match chunks with
  | [] => (Except.ok (), s)
  | c :: rest =>
    match createVectorEmbedding
        { documentId := documentId, agentId := agentId, chunkIndex := i,
          content := c, embedding := some (createSimpleEmbedding c) } s with
    | (Except.error e, s') => (Except.error e, s')
    | (Except.ok _, s') => writeChunks documentId agentId rest (i + 1) s'

/-- The indexer's `catch` block: mark the document `failed`, then rethrow
the caught error.  When the `failed` write itself throws, that new error
is the one that escapes (the `await` in the catch block rejects before the
`throw error` statement runs). -/
noncomputable def rethrowAfterMarkFailed (e : Err) (documentId : Nat)
    (s : DBState) : Except Err Unit × DBState :=
  match updateTrainingDocument documentId (docUpdateStatus "failed") s with
  | (Except.error e2, s') => (Except.error e2, s')
  | (Except.ok _, s') => (Except.error e, s')

/-- rag.ts `processDocumentForRAG`: load the agent's config, set the
document status to `processing`, chunk the content with the configured
`chunkSize || 512` and `chunkOverlap || 50`, write one embedding row per
chunk, and finally set status `completed` with the chunk count.  Any
thrown error lands in the catch block (`rethrowAfterMarkFailed`).  The
`Int.toNat` clamps reproduce the one-empty-chunk behaviour a non-positive
configured size has in JavaScript.  Note that nothing here deletes
previously stored chunks of the document. -/
noncomputable def processDocumentForRAG (documentId agentId : Nat)
    (content : JSStr) (s : DBState) : Except Err Unit × DBState :=
  match getOrCreateRagConfig agentId s with
  | (Except.error e, s1) => rethrowAfterMarkFailed e documentId s1
  | (Except.ok cfg, s1) =>
    match updateTrainingDocument documentId (docUpdateStatus "processing") s1 with
    | (Except.error e, s2) => rethrowAfterMarkFailed e documentId s2
    | (Except.ok _, s2) =>
      let chunks := chunkText content (jsOrZ cfg.chunkSize 512).toNat
        (jsOrZ cfg.chunkOverlap 50).toNat
      match writeChunks documentId agentId chunks 0 s2 with
      | (Except.error e, s3) => rethrowAfterMarkFailed e documentId s3
      | (Except.ok _, s3) =>
        match updateTrainingDocument documentId
            (docUpdateCompleted chunks.length) s3 with
        | (Except.error e, s4) => rethrowAfterMarkFailed e documentId s4
        | (Except.ok _, s4) => (Except.ok (), s4)

/-- Status of the document with a given id, as a later reader of the table
would see it (first row with that id). -/
def statusOf (s : DBState) (id : Nat) : Option String :=
  (s.docs.find? (fun d => d.id == id)).map (fun d => d.status)

/-! ## Chunker lemmas -/

/-- Unfolding: past the end of the text the loop emits nothing. -/
theorem chunkTextAux_stop {text : List α} {s o start : Nat}
    (h : ¬ start < text.length) : chunkTextAux text s o start = [] := by
  rw [chunkTextAux, dif_neg h]

/-- Unfolding: a pass whose stop condition holds emits the current chunk
and ends. -/
theorem chunkTextAux_last {text : List α} {s o start : Nat}
    (h : start < text.length)
    (hb : min (start + s) text.length - o ≤ start ∨
      text.length ≤ min (start + s) text.length) :
    chunkTextAux text s o start
      = [(text.drop start).take (min (start + s) text.length - start)] := by
  rw [chunkTextAux, dif_pos h, dif_pos hb]

/-- Unfolding: a pass whose stop condition fails emits the current chunk
and continues at `e - overlap`. -/
theorem chunkTextAux_go {text : List α} {s o start : Nat}
    (h : start < text.length)
    (hb : ¬ (min (start + s) text.length - o ≤ start ∨
      text.length ≤ min (start + s) text.length)) :
    chunkTextAux text s o start
      = (text.drop start).take (min (start + s) text.length - start) ::
          chunkTextAux text s o (min (start + s) text.length - o) := by
  rw [chunkTextAux, dif_pos h, dif_neg hb]

/-- The loop always emits at least one chunk when it starts inside the
text. -/
theorem chunkTextAux_ne_nil {text : List α} {s o start : Nat}
    (h : start < text.length) : chunkTextAux text s o start ≠ [] := by
  by_cases hb : min (start + s) text.length - o ≤ start ∨
      text.length ≤ min (start + s) text.length
  · rw [chunkTextAux_last h hb]; simp
  · rw [chunkTextAux_go h hb]; simp


/-- Emitted chunk count is bounded by the text length not yet consumed:
every pass advances `start` or stops. -/
theorem chunkTextAux_length_le (text : List α) (s o : Nat) :
    ∀ start, (chunkTextAux text s o start).length ≤ text.length - start := by
  intro start
  by_cases h : start < text.length
  · by_cases hb : min (start + s) text.length - o ≤ start ∨
        text.length ≤ min (start + s) text.length
    · rw [chunkTextAux_last h hb]
      simp only [List.length_singleton]
      omega
    · rw [chunkTextAux_go h hb]
      have ih := chunkTextAux_length_le text s o
        (min (start + s) text.length - o)
      simp only [List.length_cons]
      omega
  · rw [chunkTextAux_stop h]
    simp
termination_by start => text.length - start
decreasing_by
  omega

/-- With `overlap < chunkSize`, dropping the first `overlap` elements of
every emitted chunk and concatenating yields exactly the unconsumed text
shifted by `overlap`. -/
theorem chunkTextAux_join_drop (text : List α) {s o : Nat} (hso : o < s) :
    ∀ start, start < text.length →
      ((chunkTextAux text s o start).map (List.drop o)).flatten
        = text.drop (start + o) := by
  intro start h
  by_cases hb : min (start + s) text.length - o ≤ start ∨
      text.length ≤ min (start + s) text.length
  · have he : min (start + s) text.length = text.length := by omega
    rw [chunkTextAux_last h hb, he]
    simp only [List.map_cons, List.map_nil, List.flatten_cons,
      List.flatten_nil, List.append_nil]
    rw [List.take_of_length_le (by simp)]
    rw [List.drop_drop]
  · have hlt : min (start + s) text.length - o < text.length := by omega
    have he : min (start + s) text.length = start + s := by omega
    rw [chunkTextAux_go h hb]
    have ih := chunkTextAux_join_drop text hso
      (min (start + s) text.length - o) hlt
    rw [List.map_cons, List.flatten_cons, ih, he]
    rw [List.drop_take, List.drop_drop]
    have e1 : start + s - o + o = start + s := by omega
    have e2 : start + s - start - o = s - o := by omega
    rw [e1, e2]
    have e3 : text.drop (start + s) = (text.drop (start + o)).drop (s - o) := by
      rw [List.drop_drop]; congr 1; omega
    rw [e3, List.take_append_drop]
termination_by start => text.length - start
decreasing_by
  omega

/-- With `overlap < chunkSize`, the last emitted chunk is a suffix of the
text (its window ends exactly at `text.length`). -/
theorem chunkTextAux_last_suffix (text : List α) {s o : Nat} (hso : o < s) :
    ∀ start, start < text.length →
      ∀ lc, (chunkTextAux text s o start).getLast? = some lc →
        ∃ pre, text = pre ++ lc := by
  intro start h lc hlc
  by_cases hb : min (start + s) text.length - o ≤ start ∨
      text.length ≤ min (start + s) text.length
  · have he : min (start + s) text.length = text.length := by omega
    rw [chunkTextAux_last h hb, he, List.getLast?_singleton] at hlc
    have hlc2 := Option.some.inj hlc
    have hchunk : (text.drop start).take (text.length - start)
        = text.drop start := List.take_of_length_le (by simp)
    refine ⟨text.take start, ?_⟩
    rw [← hlc2, hchunk]
    exact (List.take_append_drop start text).symm
  · have hlt : min (start + s) text.length - o < text.length := by omega
    rw [chunkTextAux_go h hb] at hlc
    have hne : chunkTextAux text s o (min (start + s) text.length - o) ≠ [] :=
      chunkTextAux_ne_nil hlt
    obtain ⟨y, ys, hys⟩ := List.exists_cons_of_ne_nil hne
    rw [hys, List.getLast?_cons_cons, ← hys] at hlc
    exact chunkTextAux_last_suffix text hso
      (min (start + s) text.length - o) hlt lc hlc
termination_by start => text.length - start
decreasing_by
  omega

/-- Nonempty lists have a last element. -/
theorem exists_getLast?_of_ne_nil {l : List α} (h : l ≠ []) :
    ∃ x, l.getLast? = some x := by
  rw [← List.getLast?_isSome] at h
  exact Option.isSome_iff_exists.mp h

/-- C7: `chunkText("")` is the empty sequence; text shorter than
`chunkSize` yields the single chunk equal to the whole text; and for
`chunkSize > overlap ≥ 0` on nonempty text, the first chunk followed by
the overlap-stripped remaining chunks concatenates back to the text
exactly, and the last emitted chunk is a suffix of the text (its window
ends exactly at `text.length`). -/
theorem c7_chunker_correct (text : List α) (s o : Nat) (hso : o < s) :
    chunkText ([] : List α) s o = [] ∧
    (text ≠ [] → text.length < s → chunkText text s o = [text]) ∧
    (text ≠ [] →
      ∃ c0 rest, chunkText text s o = c0 :: rest ∧
        c0 ++ (rest.map (List.drop o)).flatten = text ∧
        ∃ pre lc, (c0 :: rest).getLast? = some lc ∧ text = pre ++ lc) := by
  refine ⟨?_, ?_, ?_⟩
  · unfold chunkText
    rw [chunkTextAux_stop (by simp)]
  · intro hne hshort
    have h0 : 0 < text.length := List.length_pos.mpr hne
    unfold chunkText
    have hb : min (0 + s) text.length - o ≤ 0 ∨
        text.length ≤ min (0 + s) text.length := by omega
    have he : min (0 + s) text.length = text.length := by omega
    rw [chunkTextAux_last h0 hb, he, List.drop_zero, Nat.sub_zero,
      List.take_of_length_le (by simp)]
  · intro hne
    have h0 : 0 < text.length := List.length_pos.mpr hne
    by_cases hb : min (0 + s) text.length - o ≤ 0 ∨
        text.length ≤ min (0 + s) text.length
    · have he : min (0 + s) text.length = text.length := by omega
      have hc : chunkText text s o = [text] := by
        unfold chunkText
        rw [chunkTextAux_last h0 hb, he, List.drop_zero, Nat.sub_zero,
          List.take_of_length_le (by simp)]
      exact ⟨text, [], hc, by simp, [], text, by simp, by simp⟩
    · have he : min (0 + s) text.length = 0 + s := by omega
      have hlt : min (0 + s) text.length - o < text.length := by omega
      have hgo := @chunkTextAux_go _ text s o 0 h0 hb
      refine ⟨(text.drop 0).take (min (0 + s) text.length - 0),
        chunkTextAux text s o (min (0 + s) text.length - o), hgo, ?_, ?_⟩
      · rw [chunkTextAux_join_drop text hso (min (0 + s) text.length - o) hlt]
        rw [he, List.drop_zero, Nat.sub_zero]
        have e1 : 0 + s - o + o = s := by omega
        have e2 : 0 + s = s := by omega
        rw [e1, e2, List.take_append_drop]
      · have hnn := @chunkTextAux_ne_nil _ text s o
          (min (0 + s) text.length - o) hlt
        obtain ⟨lc, hlc⟩ := exists_getLast?_of_ne_nil hnn
        have hlast0 : (chunkTextAux text s o 0).getLast? = some lc := by
          rw [hgo]
          obtain ⟨y, ys, hys⟩ := List.exists_cons_of_ne_nil hnn
          rw [hys, List.getLast?_cons_cons, ← hys]
          exact hlc
        obtain ⟨pre, hpre⟩ :=
          chunkTextAux_last_suffix text hso 0 h0 lc hlast0
        refine ⟨pre, lc, ?_, hpre⟩
        rw [← hgo]
        exact hlast0

/-- Witness for C7 at concrete inputs: a text shorter than the chunk size
gives one chunk, and for text [1,2,3,4,5] with chunkSize 3, overlap 1 the
emitted chunks reconstruct the text with overlaps stripped. -/
theorem c7_chunker_correct_witness :
    chunkText ([9, 8] : List Nat) 3 1 = [[9, 8]] ∧
    (∃ c0 rest, chunkText ([1, 2, 3, 4, 5] : List Nat) 3 1 = c0 :: rest ∧
      c0 ++ (rest.map (List.drop 1)).flatten = [1, 2, 3, 4, 5] ∧
      ∃ pre lc, (c0 :: rest).getLast? = some lc ∧ [1, 2, 3, 4, 5] = pre ++ lc) :=
  ⟨(c7_chunker_correct ([9, 8] : List Nat) 3 1 (by decide)).2.1
     (by decide) (by decide),
   (c7_chunker_correct ([1, 2, 3, 4, 5] : List Nat) 3 1 (by decide)).2.2
     (by decide)⟩

/-- C8: for every text and every `chunkSize > 0` (any overlap, including
`overlap ≥ chunkSize`) the chunker emits a finite sequence of at most
`text.length` chunks; when `overlap ≥ chunkSize` the guard stops the loop
after the first emitted chunk, which is `text.slice(0, chunkSize)`. -/
theorem c8_chunker_terminates (text : List α) (s o : Nat) (hs : 0 < s) :
    (chunkText text s o).length ≤ text.length ∧
    (s ≤ o → (chunkText text s o).length ≤ 1) ∧
    (s ≤ o → text ≠ [] → chunkText text s o = [text.take s]) := by
  refine ⟨?_, ?_, ?_⟩
  · have := chunkTextAux_length_le text s o 0
    unfold chunkText
    omega
  · intro hso
    by_cases hne : text = []
    · subst hne
      unfold chunkText
      rw [chunkTextAux_stop (by simp)]
      simp
    · have h0 : 0 < text.length := List.length_pos.mpr hne
      have hb : min (0 + s) text.length - o ≤ 0 ∨
          text.length ≤ min (0 + s) text.length := by omega
      unfold chunkText
      rw [chunkTextAux_last h0 hb]
      simp
  · intro hso hne
    have h0 : 0 < text.length := List.length_pos.mpr hne
    have hb : min (0 + s) text.length - o ≤ 0 ∨
        text.length ≤ min (0 + s) text.length := by omega
    unfold chunkText
    rw [chunkTextAux_last h0 hb, List.drop_zero, Nat.sub_zero]
    congr 1
    rw [Nat.zero_add]
    rcases Nat.le_total s text.length with hle | hle
    · rw [Nat.min_eq_left hle]
    · rw [Nat.min_eq_right hle, List.take_length,
        List.take_of_length_le hle]

/-- Witness for C8 at a concrete input: chunkSize 2, overlap 5 on a
three-element text stops after one chunk. -/
theorem c8_chunker_terminates_witness :
    (chunkText ([1, 2, 3] : List Nat) 2 5).length ≤ 3 ∧
    chunkText ([1, 2, 3] : List Nat) 2 5 = [[1, 2]] :=
  ⟨(c8_chunker_terminates ([1, 2, 3] : List Nat) 2 5 (by decide)).1,
   (c8_chunker_terminates ([1, 2, 3] : List Nat) 2 5 (by decide)).2.2
     (by decide) (by decide)⟩

/-! ## Embedder and cosine similarity facts -/

/-- Lowercasing one code unit twice is the same as lowercasing it once. -/
theorem jsToLowerCU_idem (c : Nat) : jsToLowerCU (jsToLowerCU c) = jsToLowerCU c := by
  unfold jsToLowerCU
  by_cases h : 65 ≤ c ∧ c ≤ 90
  · rw [if_pos h, if_neg (by omega)]
  · rw [if_neg h, if_neg h]

/-- Lowercasing a string is idempotent. -/
theorem jsToLower_idem (t : JSStr) : jsToLower (jsToLower t) = jsToLower t := by
  unfold jsToLower
  rw [List.map_map]
  exact List.map_congr_left fun c _ => jsToLowerCU_idem c

/-- C10: the placeholder embedder is case-insensitive — embedding a string
and embedding its lowercased form produce the same 128-dimensional vector,
because the character-frequency histogram is taken over the lowercased
text.  Retrieval similarity therefore never distinguishes letter case. -/
theorem c10_embedder_case_insensitive (text : JSStr) :
    createSimpleEmbedding text = createSimpleEmbedding (jsToLower text) := by
  unfold createSimpleEmbedding
  rw [jsToLower_idem]

/-- The dot product against an all-zero vector vanishes (left factor). -/
theorem zip_mul_sum_zero_left {a b : List ℝ} (ha : ∀ x ∈ a, x = 0) :
    (((a.zip b).map fun p => p.1 * p.2).sum) = 0 := by
  apply List.sum_eq_zero
  intro x hx
  obtain ⟨⟨p1, p2⟩, hp, rfl⟩ := List.mem_map.mp hx
  have := (List.of_mem_zip hp).1
  rw [ha p1 this, zero_mul]

/-- The dot product against an all-zero vector vanishes (right factor). -/
theorem zip_mul_sum_zero_right {a b : List ℝ} (hb : ∀ x ∈ b, x = 0) :
    (((a.zip b).map fun p => p.1 * p.2).sum) = 0 := by
  apply List.sum_eq_zero
  intro x hx
  obtain ⟨⟨p1, p2⟩, hp, rfl⟩ := List.mem_map.mp hx
  have := (List.of_mem_zip hp).2
  rw [hb p2 this, mul_zero]

/-- The sum of squares of an all-zero vector vanishes. -/
theorem sq_sum_zero {a : List ℝ} (ha : ∀ x ∈ a, x = 0) :
    ((a.map fun v => v * v).sum) = 0 := by
  apply List.sum_eq_zero
  intro x hx
  obtain ⟨v, hv, rfl⟩ := List.mem_map.mp hx
  rw [ha v hv, zero_mul]

/-- Cosine similarity of two equal-length vectors one of which is
all-zero evaluates the `0 / 0` of the source and is `NaN`. -/
theorem cosineSimilarity_zero_nan {a b : List ℝ} (hlen : a.length = b.length)
    (hz : (∀ x ∈ a, x = 0) ∨ (∀ x ∈ b, x = 0)) :
    cosineSimilarity a b = JSFloat.nan := by
  unfold cosineSimilarity
  rw [if_neg (by omega)]
  have hdot : (((a.zip b).map fun p => p.1 * p.2).sum) = 0 := by
    rcases hz with ha | hb
    · exact zip_mul_sum_zero_left ha
    · exact zip_mul_sum_zero_right hb
  have hden : Real.sqrt ((a.map fun v => v * v).sum) *
      Real.sqrt ((b.map fun v => v * v).sum) = 0 := by
    rcases hz with ha | hb
    · rw [sq_sum_zero ha, Real.sqrt_zero, zero_mul]
    · rw [sq_sum_zero hb, Real.sqrt_zero, mul_zero]
  rw [hdot, hden]
  unfold jsDiv
  rw [if_pos rfl, if_pos rfl]

/-- C4 as amended: with equal lengths and either vector all-zero, the
computed similarity is `NaN` (the source divides zero by zero), not 0.
The `NaN` score then fails the `>=`-threshold filter of the retriever, so
such chunks are never selected. -/
theorem c4_cosine_zero_vector (a b : List ℝ) (hlen : a.length = b.length)
    (hz : (∀ x ∈ a, x = 0) ∨ (∀ x ∈ b, x = 0)) :
    cosineSimilarity a b = JSFloat.nan ∧
    (∀ t : ℝ, jsGeB (cosineSimilarity a b) t = false) := by
  have h := cosineSimilarity_zero_nan hlen hz
  refine ⟨h, fun t => ?_⟩
  rw [h]
  rfl

/-- Witness for C4 (amended) at the concrete pair `[0]`, `[1]`. -/
theorem c4_cosine_zero_vector_witness :
    cosineSimilarity [(0 : ℝ)] [(1 : ℝ)] = JSFloat.nan :=
  (c4_cosine_zero_vector [(0 : ℝ)] [(1 : ℝ)] rfl
    (Or.inl (by intro x hx; simpa using hx))).1

/-- Counterexample to C4 as stated: for the equal-length pair
`a = [0]` (the zero vector) and `b = [1]`, the similarity is `NaN`, not
the claimed 0. -/
theorem c4_counterexample :
    cosineSimilarity [(0 : ℝ)] [(1 : ℝ)] ≠ JSFloat.real 0 ∧
    cosineSimilarity [(0 : ℝ)] [(1 : ℝ)] = JSFloat.nan := by
  have h : cosineSimilarity [(0 : ℝ)] [(1 : ℝ)] = JSFloat.nan :=
    cosineSimilarity_zero_nan rfl (Or.inl (by intro x hx; simpa using hx))
  refine ⟨?_, h⟩
  rw [h]
  intro hc
  exact JSFloat.noConfusion hc

/-! ## Helper facts about the storage operations -/

/-- Text shorter than the chunk size yields one chunk: the whole text. -/
theorem chunkText_short {text : List α} {s o : Nat} (hne : text ≠ [])
    (hs : text.length < s) : chunkText text s o = [text] := by
  have h0 : 0 < text.length := List.length_pos.mpr hne
  unfold chunkText
  have hb : min (0 + s) text.length - o ≤ 0 ∨
      text.length ≤ min (0 + s) text.length := by omega
  have he : min (0 + s) text.length = text.length := by omega
  rw [chunkTextAux_last h0 hb, he, List.drop_zero, Nat.sub_zero,
    List.take_of_length_le (by simp)]

/-- Consuming a fault entry leaves the embeddings table unchanged. -/
theorem popState_embeds (s : DBState) : (popState s).embeds = s.embeds := rfl

/-- Loading or creating a configuration never touches the embeddings
table. -/
theorem getOrCreateRagConfig_embeds (agentId : Nat) (s : DBState) :
    ((getOrCreateRagConfig agentId s).2).embeds = s.embeds := by
  unfold getOrCreateRagConfig
  cases hk : nextFault s <;> dsimp only
  · cases hf : (popState s).configs.find? (fun c => c.agentId == agentId) <;>
      dsimp only <;> rfl
  · rfl
  · rfl

/-- Updating a training document never touches the embeddings table. -/
theorem updateTrainingDocument_embeds (id : Nat) (u : DocUpdate) (s : DBState) :
    ((updateTrainingDocument id u s).2).embeds = s.embeds := by
  unfold updateTrainingDocument
  cases hk : nextFault s <;> rfl

/-- The catch block (mark `failed`, rethrow) never touches the embeddings
table. -/
theorem rethrowAfterMarkFailed_embeds (e : Err) (documentId : Nat) (s : DBState) :
    ((rethrowAfterMarkFailed e documentId s).2).embeds = s.embeds := by
  unfold rethrowAfterMarkFailed
  rcases h : updateTrainingDocument documentId (docUpdateStatus "failed") s
    with ⟨r, s'⟩
  have := updateTrainingDocument_embeds documentId (docUpdateStatus "failed") s
  rw [h] at this
  cases r <;> dsimp only <;> exact this

/-- Inserting an embedding row can only append to the embeddings table. -/
theorem createVectorEmbedding_embeds (r : InsertEmbed) (s : DBState) :
    ∃ t, ((createVectorEmbedding r s).2).embeds = s.embeds ++ t := by
  unfold createVectorEmbedding
  cases hk : nextFault s <;> dsimp only
  · exact ⟨[_], rfl⟩
  · exact ⟨[], by simp [popState]⟩
  · exact ⟨[], by simp [popState]⟩

/-- The chunk-writing loop can only append to the embeddings table. -/
theorem writeChunks_embeds (documentId agentId : Nat) :
    ∀ (chunks : List JSStr) (i : Nat) (s : DBState),
      ∃ t, ((writeChunks documentId agentId chunks i s).2).embeds
        = s.embeds ++ t := by
  intro chunks
  induction chunks with
  | nil => exact fun i s => ⟨[], by simp [writeChunks]⟩
  | cons c rest ih =>
    intro i s
    unfold writeChunks
    obtain ⟨t1, ht1⟩ := createVectorEmbedding_embeds
      { documentId := documentId, agentId := agentId, chunkIndex := i,
        content := c, embedding := some (createSimpleEmbedding c) } s
    rcases h : createVectorEmbedding
        { documentId := documentId, agentId := agentId, chunkIndex := i,
          content := c, embedding := some (createSimpleEmbedding c) } s
      with ⟨r, s'⟩
    rw [h] at ht1
    cases r with
    | error e => exact ⟨t1, by dsimp only; exact ht1⟩
    | ok row =>
      obtain ⟨t2, ht2⟩ := ih (i + 1) s'
      refine ⟨t1 ++ t2, ?_⟩
      dsimp only
      dsimp only at ht1
      rw [ht2, ht1, List.append_assoc]

/-- C3 amended: re-processing a document never deletes existing chunks —
`processDocumentForRAG` only appends embedding rows, so the chunks stored
by an earlier run all survive a second run (duplication instead of
replacement). -/
theorem c3_reprocess_never_deletes (documentId agentId : Nat)
    (content : JSStr) (s : DBState) :
    ∃ t, ((processDocumentForRAG documentId agentId content s).2).embeds
      = s.embeds ++ t := by
  unfold processDocumentForRAG
  rcases h1 : getOrCreateRagConfig agentId s with ⟨r1, s1⟩
  have e1 : s1.embeds = s.embeds := by
    have := getOrCreateRagConfig_embeds agentId s
    rw [h1] at this
    exact this
  cases r1 with
  | error err =>
    exact ⟨[], by rw [rethrowAfterMarkFailed_embeds, e1, List.append_nil]⟩
  | ok cfg =>
    dsimp only
    rcases h2 : updateTrainingDocument documentId
        (docUpdateStatus "processing") s1 with ⟨r2, s2⟩
    have e2 : s2.embeds = s.embeds := by
      have := updateTrainingDocument_embeds documentId
        (docUpdateStatus "processing") s1
      rw [h2] at this
      rw [this, e1]
    cases r2 with
    | error err =>
      exact ⟨[], by rw [rethrowAfterMarkFailed_embeds, e2, List.append_nil]⟩
    | ok d =>
      dsimp only
      obtain ⟨t3, ht3⟩ := writeChunks_embeds documentId agentId
        (chunkText content (jsOrZ cfg.chunkSize 512).toNat
          (jsOrZ cfg.chunkOverlap 50).toNat) 0 s2
      rcases h3 : writeChunks documentId agentId
          (chunkText content (jsOrZ cfg.chunkSize 512).toNat
            (jsOrZ cfg.chunkOverlap 50).toNat) 0 s2 with ⟨r3, s3⟩
      rw [h3] at ht3
      have e3 : s3.embeds = s.embeds ++ t3 := by rw [ht3, e2]
      cases r3 with
      | error err =>
        exact ⟨t3, by rw [rethrowAfterMarkFailed_embeds, e3]⟩
      | ok u =>
        dsimp only
        rcases h4 : updateTrainingDocument documentId
            (docUpdateCompleted (chunkText content
              (jsOrZ cfg.chunkSize 512).toNat
              (jsOrZ cfg.chunkOverlap 50).toNat).length) s3 with ⟨r4, s4⟩
        have e4 : s4.embeds = s.embeds ++ t3 := by
          have := updateTrainingDocument_embeds documentId
            (docUpdateCompleted (chunkText content
              (jsOrZ cfg.chunkSize 512).toNat
              (jsOrZ cfg.chunkOverlap 50).toNat).length) s3
          rw [h4] at this
          rw [this, e3]
        cases r4 with
        | error err =>
          exact ⟨t3, by rw [rethrowAfterMarkFailed_embeds, e4]⟩
        | ok dd => exact ⟨t3, e4⟩

/-! ## C1: the retriever swallows storage errors -/

/-- C1 amended: `retrieveRelevantContext` never propagates an error — its
enclosing `try`/`catch` converts every thrown error (infrastructure
failures included) into a `null` return, indistinguishable from "no
context found". -/
theorem c1_retriever_never_throws (agentId : Nat) (query : JSStr)
    (s : DBState) :
    ∃ v s', retrieveRelevantContext agentId query s = (Except.ok v, s') := by
  unfold retrieveRelevantContext
  rcases h1 : getOrCreateRagConfig agentId s with ⟨r1, s1⟩
  cases r1 with
  | error e => exact ⟨none, s1, rfl⟩
  | ok cfg =>
    dsimp only
    by_cases hen : cfg.enabled ≠ 1
    · rw [if_pos hen]
      exact ⟨none, s1, rfl⟩
    · rw [if_neg hen]
      rcases h2 : getVectorEmbeddingsByAgentId agentId s1 with ⟨r2, s2⟩
      cases r2 with
      | error e => exact ⟨none, s2, rfl⟩
      | ok rows =>
        dsimp only
        by_cases hrow : rows.length = 0
        · rw [if_pos hrow]
          exact ⟨none, s2, rfl⟩
        · rw [if_neg hrow]
          by_cases hsel : (selectedChunks cfg query rows).length = 0
          · rw [if_pos hsel]
            exact ⟨none, s2, rfl⟩
          · rw [if_neg hsel]
            exact ⟨_, s2, rfl⟩

/-- A state whose storage is unavailable for the next call (`getDb()`
yields no handle), with otherwise empty tables. -/
def unavailableState : DBState :=
  { docs := [], embeds := [], configs := [], nextId := 1, now := 0,
    faults := [FaultKind.noDb] }

/-- Counterexample to C1 as stated: with storage unavailable, the config
load inside `retrieveRelevantContext` throws
(`Error("Database not available")`), yet `retrieveRelevantContext` returns
`null` instead of propagating the error. -/
theorem c1_counterexample :
    (getOrCreateRagConfig 1 unavailableState).1
      = Except.error Err.dbUnavailable ∧
    (retrieveRelevantContext 1 [] unavailableState).1 = Except.ok none := by
  exact ⟨rfl, rfl⟩

/-! ## C2: deleting a document leaves its chunks retrievable -/

/-- A training document of user 1 / agent 1. -/
def c2Doc : DocRow :=
  { id := 1, agentId := 1, userId := 1, content := [104, 105],
    status := "completed", chunkCount := 1, createdAt := 0 }

/-- A stored embedding chunk of that document. -/
def c2Chunk : EmbedRow :=
  { id := 2, documentId := 1, agentId := 1, chunkIndex := 0,
    content := [104, 105], embedding := none, createdAt := 1 }

/-- Healthy storage holding the document and its one chunk. -/
def c2State : DBState :=
  { docs := [c2Doc], embeds := [c2Chunk], configs := [], nextId := 3,
    now := 2, faults := [] }

/-- C2 fails on the code: `deleteTrainingDocument` deletes only the
`trainingDocuments` row (the schema has no cascading foreign key and
`deleteVectorEmbeddingsByDocumentId` is never called), so after the
delete completes the document's chunk is still returned by the per-agent
chunk scan. -/
theorem c2_orphan_chunk_remains :
    (deleteTrainingDocument 1 1 c2State).1 = Except.ok () ∧
    (deleteTrainingDocument 1 1 c2State).2.docs = [] ∧
    (getVectorEmbeddingsByAgentId 1 (deleteTrainingDocument 1 1 c2State).2).1
      = Except.ok [c2Chunk] := by
  exact ⟨rfl, rfl, rfl⟩

/-! ## C3 counterexample: re-processing duplicates chunks -/

/-- The agent's RAG configuration with the schema defaults. -/
def c3Cfg : ConfigRow :=
  { id := 1, agentId := 1, enabled := 1, chunkSize := some 512,
    chunkOverlap := some 50, topK := some 3,
    similarityThreshold := some (7 / 10) }

/-- The document as left by a first, completed processing run. -/
def c3Doc : DocRow :=
  { id := 1, agentId := 1, userId := 1, content := [104, 105],
    status := "completed", chunkCount := 1, createdAt := 0 }

/-- The chunk stored by the first run (its content is the whole short
document). -/
def c3OldChunk : EmbedRow :=
  { id := 2, documentId := 1, agentId := 1, chunkIndex := 0,
    content := [104, 105], embedding := none, createdAt := 1 }

/-- Healthy storage as left by the first processing run. -/
def c3State : DBState :=
  { docs := [c3Doc], embeds := [c3OldChunk], configs := [c3Cfg],
    nextId := 3, now := 2, faults := [] }

/-- Reduction of `processDocumentForRAG` once the config load and the
`processing` status write are known to succeed and the chunking result is
known. -/
theorem processDocumentForRAG_eq_of_ok_start (documentId agentId : Nat)
    (content : JSStr) (s : DBState) (cfg : ConfigRow) (s1 : DBState)
    (h1 : getOrCreateRagConfig agentId s = (Except.ok cfg, s1))
    (d : Option DocRow) (s2 : DBState)
    (h2 : updateTrainingDocument documentId (docUpdateStatus "processing") s1
      = (Except.ok d, s2))
    (chunks : List JSStr)
    (hch : chunkText content (jsOrZ cfg.chunkSize 512).toNat
      (jsOrZ cfg.chunkOverlap 50).toNat = chunks) :
    processDocumentForRAG documentId agentId content s
      = match writeChunks documentId agentId chunks 0 s2 with
        | (Except.error e, s3) => rethrowAfterMarkFailed e documentId s3
        | (Except.ok _, s3) =>
          match updateTrainingDocument documentId
              (docUpdateCompleted chunks.length) s3 with
          | (Except.error e, s4) => rethrowAfterMarkFailed e documentId s4
          | (Except.ok _, s4) => (Except.ok (), s4) := by
  unfold processDocumentForRAG
  rw [h1]
  dsimp only
  rw [h2]
  dsimp only
  rw [hch]

/-- Counterexample to C3 as stated: re-processing the already-processed
document appends a fresh chunk without deleting the old one, leaving two
chunks with the same document id and identical content. -/
theorem c3_counterexample :
    (processDocumentForRAG 1 1 [104, 105] c3State).1 = Except.ok () ∧
    ((processDocumentForRAG 1 1 [104, 105] c3State).2.embeds.map
        fun e => (e.documentId, e.content))
      = [(1, [104, 105]), (1, [104, 105])] := by
  have hch : chunkText ([104, 105] : JSStr) (jsOrZ c3Cfg.chunkSize 512).toNat
      (jsOrZ c3Cfg.chunkOverlap 50).toNat = [[104, 105]] :=
    chunkText_short (by decide) (by decide)
  have hrun := processDocumentForRAG_eq_of_ok_start 1 1 [104, 105] c3State
    c3Cfg c3State rfl _ _ rfl [[104, 105]] hch
  rw [hrun]
  exact ⟨rfl, rfl⟩

/-! ## C6: the `topK || 3` fallback -/

/-- Length-mismatched vectors score 0 by the guard at the top of
`cosineSimilarity`. -/
theorem cosineSimilarity_length_mismatch {a b : List ℝ}
    (h : a.length ≠ b.length) : cosineSimilarity a b = JSFloat.real 0 := by
  unfold cosineSimilarity
  rw [if_pos h]

/-- Reduction of `retrieveRelevantContext` once the config load and the
chunk scan are known to succeed with RAG enabled and a nonempty scan. -/
theorem retrieveRelevantContext_eq_of_ok (agentId : Nat) (query : JSStr)
    (s : DBState) (cfg : ConfigRow) (s1 : DBState)
    (h1 : getOrCreateRagConfig agentId s = (Except.ok cfg, s1))
    (hen : cfg.enabled = 1)
    (rows : List EmbedRow) (s2 : DBState)
    (h2 : getVectorEmbeddingsByAgentId agentId s1 = (Except.ok rows, s2))
    (hne : rows.length ≠ 0) :
    retrieveRelevantContext agentId query s
      = (if (selectedChunks cfg query rows).length = 0
         then (Except.ok none, s2)
         else (Except.ok (some (List.intercalate [10, 10]
           ((selectedChunks cfg query rows).map fun it => it.row.content))),
           s2)) := by
  unfold retrieveRelevantContext
  rw [h1]
  dsimp only
  rw [if_neg (show ¬ cfg.enabled ≠ 1 from fun h => h hen)]
  rw [h2]
  dsimp only
  rw [if_neg hne]

/-- An agent configuration storing `topK = 0` (and threshold 0, RAG
enabled). -/
def c6Cfg : ConfigRow :=
  { id := 1, agentId := 1, enabled := 1, chunkSize := some 512,
    chunkOverlap := some 50, topK := some 0, similarityThreshold := some 0 }

/-- A stored chunk whose embedding has the wrong dimension, so it scores
exactly 0 (which passes the threshold 0). -/
def c6Chunk : EmbedRow :=
  { id := 2, documentId := 1, agentId := 1, chunkIndex := 0,
    content := [99], embedding := some [1], createdAt := 1 }

/-- Healthy storage with that configuration and one stored chunk. -/
def c6State : DBState :=
  { docs := [], embeds := [c6Chunk], configs := [c6Cfg], nextId := 3,
    now := 2, faults := [] }

/-- The concrete pipeline value for the C6 state: the single stored chunk
survives scoring, filtering, sorting and slicing even though `topK = 0`,
because `config.topK || 3` treats 0 as falsy and falls back to 3. -/
theorem selectedChunks_c6 :
    selectedChunks c6Cfg [] [c6Chunk]
      = [{ row := c6Chunk, score := JSFloat.real 0 }] := by
  have hcos : cosineSimilarity (createSimpleEmbedding []) [1]
      = JSFloat.real 0 :=
    cosineSimilarity_length_mismatch
      (by rw [createSimpleEmbedding_length]; simp)
  have hscore : scoreRow (createSimpleEmbedding []) c6Chunk
      = { row := c6Chunk, score := JSFloat.real 0 } := by
    unfold scoreRow c6Chunk
    dsimp only
    rw [hcos]
  have hge : jsGeB (JSFloat.real 0) (thresholdOf c6Cfg) = true := by
    unfold jsGeB thresholdOf c6Cfg
    dsimp only
    rw [decide_eq_true_eq]
    norm_num
  rw [show selectedChunks c6Cfg [] [c6Chunk]
      = jsSliceTo (jsOrZ c6Cfg.topK 3) (sortStable scoreDescB
        (List.filter (fun it => jsGeB it.score (thresholdOf c6Cfg))
          (List.map (scoreRow (createSimpleEmbedding [])) [c6Chunk])))
    from rfl]
  rw [List.map_singleton, hscore, List.filter_singleton, hge]
  rfl

/-- Counterexample to C6 as stated: with `topK = 0` stored in the
configuration, the retriever still returns one chunk's content (the
`config.topK || 3` fallback treats 0 as "use the default 3"), so the
context is not limited to `topK = 0` chunks. -/
theorem c6_counterexample :
    c6Cfg.topK = some 0 ∧
    (selectedChunks c6Cfg [] [c6Chunk]).length = 1 ∧
    (retrieveRelevantContext 1 [] c6State).1 = Except.ok (some [99]) := by
  refine ⟨rfl, by rw [selectedChunks_c6]; rfl, ?_⟩
  have hrun := retrieveRelevantContext_eq_of_ok 1 [] c6State c6Cfg c6State
    rfl rfl [c6Chunk] c6State rfl (by simp)
  rw [hrun, selectedChunks_c6]
  rfl

/-- C6 amended: whenever the value of `config.topK || 3` is non-negative,
the retriever returns at most that many chunks — for a stored `topK ≥ 1`
that is `topK` itself, while a stored `topK = 0` (or NULL) falls back to
the default 3. -/
theorem c6_topk_bound (cfg : ConfigRow) (query : JSStr)
    (rows : List EmbedRow) (hk : 0 ≤ jsOrZ cfg.topK 3) :
    (selectedChunks cfg query rows).length ≤ (jsOrZ cfg.topK 3).toNat := by
  rw [show selectedChunks cfg query rows
      = jsSliceTo (jsOrZ cfg.topK 3) (sortStable scoreDescB
        (List.filter (fun it => jsGeB it.score (thresholdOf cfg))
          (List.map (scoreRow (createSimpleEmbedding query)) rows)))
    from rfl]
  unfold jsSliceTo
  rw [if_pos hk]
  rw [List.length_take]
  exact Nat.min_le_left _ _

/-- Witness for C6 (amended) at the concrete C6 configuration and an
empty row set: `topK = 0` falls back to 3 and the bound holds. -/
theorem c6_topk_bound_witness :
    (selectedChunks c6Cfg [] []).length ≤ (jsOrZ c6Cfg.topK 3).toNat :=
  c6_topk_bound c6Cfg [] [] (by decide)

/-! ## C5: sorting, stability and tie order -/

/-- Membership in a stable insertion. -/
theorem mem_insertStable (le : α → α → Bool) (x a : α) :
    ∀ l, a ∈ insertStable le x l ↔ a = x ∨ a ∈ l := by
  intro l
  induction l with
  | nil => simp [insertStable]
  | cons y ys ih =>
    unfold insertStable
    by_cases hxy : le x y
    · rw [if_pos hxy]
      simp [List.mem_cons]
    · rw [if_neg hxy]
      simp only [List.mem_cons, ih]
      tauto

/-- Membership in a stable sort. -/
theorem mem_sortStable (le : α → α → Bool) (a : α) :
    ∀ l, a ∈ sortStable le l ↔ a ∈ l := by
  intro l
  induction l with
  | nil => simp [sortStable]
  | cons y ys ih =>
    show a ∈ insertStable le y (sortStable le ys) ↔ _
    rw [mem_insertStable, ih]
    simp [List.mem_cons]

/-- Stability of insertion: inserting `x` after all of `l` (in input
order) preserves the pairwise relation `le b a = true → P a b`, because an
element placed before `x` must have compared strictly above it. -/
theorem insertStable_pairwise (le : α → α → Bool) (P : α → α → Prop)
    (x : α) :
    ∀ l, (∀ z ∈ l, P x z) →
      l.Pairwise (fun a b => le b a = true → P a b) →
      (insertStable le x l).Pairwise (fun a b => le b a = true → P a b) := by
  intro l
  induction l with
  | nil => intro _ _; simp [insertStable]
  | cons y ys ih =>
    intro hx hl
    rcases List.pairwise_cons.mp hl with ⟨hy, hys⟩
    unfold insertStable
    by_cases hxy : le x y
    · rw [if_pos hxy]
      refine List.pairwise_cons.mpr ⟨?_, hl⟩
      intro z hz _
      exact hx z hz
    · rw [if_neg hxy]
      refine List.pairwise_cons.mpr ⟨?_, ?_⟩
      · intro z hz
        rcases (mem_insertStable le x z ys).mp hz with rfl | hzys
        · intro hle
          exact absurd hle hxy
        · exact hy z hzys
      · exact ih (fun z hz => hx z (List.mem_cons_of_mem _ hz)) hys

/-- Stability of the sort: if the input satisfies `P` pairwise (in input
order), then in the sorted output any pair ordered the "wrong way" for
`le` — in particular any tie — still satisfies `P`, i.e. ties keep input
order. -/
theorem sortStable_pairwise (le : α → α → Bool) (P : α → α → Prop) :
    ∀ l, l.Pairwise P →
      (sortStable le l).Pairwise (fun a b => le b a = true → P a b) := by
  intro l
  induction l with
  | nil => intro _; simp [sortStable]
  | cons x xs ih =>
    intro hl
    rcases List.pairwise_cons.mp hl with ⟨hx, hxs⟩
    show (insertStable le x (sortStable le xs)).Pairwise _
    refine insertStable_pairwise le P x (sortStable le xs) ?_ (ih hxs)
    intro z hz
    exact hx z ((mem_sortStable le z xs).mp hz)

/-- Insertion into a sorted list keeps it sorted (for a total, transitive
comparator). -/
theorem insertStable_sorted (le : α → α → Bool)
    (htot : ∀ a b, le a b = true ∨ le b a = true)
    (htrans : ∀ a b c, le a b = true → le b c = true → le a c = true)
    (x : α) :
    ∀ l, l.Pairwise (fun a b => le a b = true) →
      (insertStable le x l).Pairwise (fun a b => le a b = true) := by
  intro l
  induction l with
  | nil => intro _; simp [insertStable]
  | cons y ys ih =>
    intro hl
    rcases List.pairwise_cons.mp hl with ⟨hy, hys⟩
    unfold insertStable
    by_cases hxy : le x y
    · rw [if_pos hxy]
      refine List.pairwise_cons.mpr ⟨?_, hl⟩
      intro z hz
      rcases List.mem_cons.mp hz with rfl | hzys
      · exact hxy
      · exact htrans x y z hxy (hy z hzys)
    · rw [if_neg hxy]
      have hyx : le y x = true := by
        rcases htot x y with h | h
        · exact absurd h hxy
        · exact h
      refine List.pairwise_cons.mpr ⟨?_, ih hys⟩
      intro z hz
      rcases (mem_insertStable le x z ys).mp hz with rfl | hzys
      · exact hyx
      · exact hy z hzys

/-- The stable sort sorts (for a total, transitive comparator). -/
theorem sortStable_sorted (le : α → α → Bool)
    (htot : ∀ a b, le a b = true ∨ le b a = true)
    (htrans : ∀ a b c, le a b = true → le b c = true → le a c = true) :
    ∀ l, (sortStable le l).Pairwise (fun a b => le a b = true) := by
  intro l
  induction l with
  | nil => simp [sortStable]
  | cons x xs ih =>
    show (insertStable le x (sortStable le xs)).Pairwise _
    exact insertStable_sorted le htot htrans x (sortStable le xs) ih

/-- Scoring a row does not change the row. -/
theorem scoreRow_row (queryEmbedding : List ℝ) (e : EmbedRow) :
    (scoreRow queryEmbedding e).row = e := by
  unfold scoreRow
  cases he : e.embedding <;> rfl

/-- `array.slice(0, k)` keeps a subsequence (in fact a prefix). -/
theorem jsSliceTo_sublist (k : Int) (l : List α) :
    (jsSliceTo k l).Sublist l := by
  unfold jsSliceTo
  by_cases h : 0 ≤ k
  · rw [if_pos h]
    exact List.take_sublist _ _
  · rw [if_neg h]
    exact List.take_sublist _ _

/-- The per-agent chunk scan returns rows in non-increasing creation
order (`ORDER BY createdAt DESC`). -/
theorem getVectorEmbeddingsByAgentId_sorted (agentId : Nat) (s : DBState)
    (rows : List EmbedRow) (s2 : DBState)
    (h : getVectorEmbeddingsByAgentId agentId s = (Except.ok rows, s2)) :
    rows.Pairwise (fun a b => b.createdAt ≤ a.createdAt) := by
  revert h
  unfold getVectorEmbeddingsByAgentId
  cases hk : nextFault s <;> dsimp only <;> intro h
  · injection h with h1 h2
    injection h1 with h1
    subst h1
    have hsorted := sortStable_sorted
      (fun a b : EmbedRow => decide (b.createdAt ≤ a.createdAt))
      (fun a b => by
        rcases Nat.le_total b.createdAt a.createdAt with hle | hle
        · left; rwa [decide_eq_true_eq]
        · right; rwa [decide_eq_true_eq])
      (fun a b c hab hbc => by
        rw [decide_eq_true_eq] at hab hbc ⊢
        omega)
      ((popState s).embeds.filter (fun e => e.agentId == agentId))
    refine hsorted.imp ?_
    intro a b hab
    rwa [decide_eq_true_eq] at hab
  · injection h with h1 h2
    injection h1 with h1
    subst h1
    exact List.Pairwise.nil
  · injection h with h1 h2
    exact absurd h1 (by simp)

/-- C5 amended: equal-score chunks appear in the retriever's output in
scan order, which is DESCENDING creation order — the per-agent scan
returns newest-first and the sort is stable — so among surviving ties the
later-created chunk comes first, not the earlier-created one. -/
theorem c5_tie_order (agentId : Nat) (query : JSStr) (s : DBState)
    (rows : List EmbedRow) (s2 : DBState) (cfg : ConfigRow)
    (h : getVectorEmbeddingsByAgentId agentId s = (Except.ok rows, s2)) :
    (selectedChunks cfg query rows).Pairwise
      (fun a b => a.score.toR = b.score.toR →
        b.row.createdAt ≤ a.row.createdAt) := by
  have hrows := getVectorEmbeddingsByAgentId_sorted agentId s rows s2 h
  have hmap : (rows.map (scoreRow (createSimpleEmbedding query))).Pairwise
      (fun a b : Scored => b.row.createdAt ≤ a.row.createdAt) := by
    rw [List.pairwise_map]
    refine hrows.imp ?_
    intro a b hab
    rw [scoreRow_row, scoreRow_row]
    exact hab
  have hfil := hmap.filter (fun it => jsGeB it.score (thresholdOf cfg))
  have hsort := sortStable_pairwise scoreDescB
    (fun a b : Scored => b.row.createdAt ≤ a.row.createdAt) _ hfil
  have hslice := List.Pairwise.sublist
    (jsSliceTo_sublist (jsOrZ cfg.topK 3) _) hsort
  rw [show selectedChunks cfg query rows
      = jsSliceTo (jsOrZ cfg.topK 3) (sortStable scoreDescB
        (List.filter (fun it => jsGeB it.score (thresholdOf cfg))
          (List.map (scoreRow (createSimpleEmbedding query)) rows)))
    from rfl]
  refine hslice.imp ?_
  intro a b hab htie
  apply hab
  unfold scoreDescB
  rw [decide_eq_true_eq, htie]

/-- An agent configuration with threshold 0 (RAG enabled, default topK). -/
def c5Cfg : ConfigRow :=
  { id := 1, agentId := 1, enabled := 1, chunkSize := some 512,
    chunkOverlap := some 50, topK := some 3, similarityThreshold := some 0 }

/-- The earlier-created stored chunk, content "old". -/
def c5Old : EmbedRow :=
  { id := 2, documentId := 1, agentId := 1, chunkIndex := 0,
    content := [111, 108, 100], embedding := some [1], createdAt := 10 }

/-- The later-created stored chunk, content "new"; same (mismatched)
embedding, hence the same score 0 as `c5Old`. -/
def c5New : EmbedRow :=
  { id := 3, documentId := 1, agentId := 1, chunkIndex := 1,
    content := [110, 101, 119], embedding := some [1], createdAt := 20 }

/-- Healthy storage with both chunks and the threshold-0 configuration. -/
def c5State : DBState :=
  { docs := [], embeds := [c5Old, c5New], configs := [c5Cfg],
    nextId := 4, now := 21, faults := [] }

theorem c5_tie_order_witness :
    (selectedChunks c5Cfg [] [c5New, c5Old]).Pairwise
      (fun a b => a.score.toR = b.score.toR →
        b.row.createdAt ≤ a.row.createdAt) :=
  c5_tie_order 1 [] c5State [c5New, c5Old] (popState c5State) c5Cfg rfl

/-- The concrete pipeline value for the C5 state: both chunks score 0,
both pass the threshold 0, and the stable sort keeps the scan order —
newest first. -/
theorem selectedChunks_c5 :
    selectedChunks c5Cfg [] [c5New, c5Old]
      = [{ row := c5New, score := JSFloat.real 0 },
         { row := c5Old, score := JSFloat.real 0 }] := by
  have hcos : cosineSimilarity (createSimpleEmbedding []) [1]
      = JSFloat.real 0 :=
    cosineSimilarity_length_mismatch
      (by rw [createSimpleEmbedding_length]; simp)
  have hscoreN : scoreRow (createSimpleEmbedding []) c5New
      = { row := c5New, score := JSFloat.real 0 } := by
    unfold scoreRow c5New
    dsimp only
    rw [hcos]
  have hscoreO : scoreRow (createSimpleEmbedding []) c5Old
      = { row := c5Old, score := JSFloat.real 0 } := by
    unfold scoreRow c5Old
    dsimp only
    rw [hcos]
  have hge : jsGeB (JSFloat.real 0) (thresholdOf c5Cfg) = true := by
    unfold jsGeB thresholdOf c5Cfg
    dsimp only
    rw [decide_eq_true_eq]
    norm_num
  have htie : scoreDescB { row := c5New, score := JSFloat.real 0 }
      { row := c5Old, score := JSFloat.real 0 } = true := by
    unfold scoreDescB JSFloat.toR
    dsimp only
    rw [decide_eq_true_eq]
  rw [show selectedChunks c5Cfg [] [c5New, c5Old]
      = jsSliceTo (jsOrZ c5Cfg.topK 3) (sortStable scoreDescB
        (List.filter (fun it => jsGeB it.score (thresholdOf c5Cfg))
          (List.map (scoreRow (createSimpleEmbedding [])) [c5New, c5Old])))
    from rfl]
  rw [List.map_cons, List.map_singleton, hscoreN, hscoreO]
  have hfil : List.filter (fun it : Scored => jsGeB it.score (thresholdOf c5Cfg))
      [{ row := c5New, score := JSFloat.real 0 },
       { row := c5Old, score := JSFloat.real 0 }]
      = [{ row := c5New, score := JSFloat.real 0 },
         { row := c5Old, score := JSFloat.real 0 }] := by
    rw [List.filter_cons, List.filter_singleton]
    dsimp only
    rw [hge]
    rfl
  rw [hfil]
  rw [show sortStable scoreDescB
      [{ row := c5New, score := JSFloat.real 0 },
       { row := c5Old, score := JSFloat.real 0 }]
      = insertStable scoreDescB { row := c5New, score := JSFloat.real 0 }
          [{ row := c5Old, score := JSFloat.real 0 }] from rfl]
  unfold insertStable
  rw [if_pos htie]
  rfl

/-- Counterexample to C5 as stated: two stored chunks tie with score 0
and both pass the threshold, yet the retriever places the LATER-created
chunk ("new", createdAt 20) before the earlier-created one ("old",
createdAt 10): the context is "new\n\nold", not "old\n\nnew". -/
theorem c5_counterexample :
    c5Old.createdAt < c5New.createdAt ∧
    (selectedChunks c5Cfg [] [c5New, c5Old]).map (fun it => it.row.content)
      = [[110, 101, 119], [111, 108, 100]] ∧
    (retrieveRelevantContext 1 [] c5State).1
      = Except.ok (some [110, 101, 119, 10, 10, 111, 108, 100]) := by
  refine ⟨by decide, by rw [selectedChunks_c5]; rfl, ?_⟩
  have hrun := retrieveRelevantContext_eq_of_ok 1 [] c5State c5Cfg c5State
    rfl rfl [c5New, c5Old] (popState c5State) rfl (by simp)
  rw [hrun, selectedChunks_c5]
  rfl

/-! ## C9: indexer failure semantics under transient storage failures -/

/-- Number of faulty entries in a fault schedule. -/
def faultCount (l : List FaultKind) : Nat :=
  (l.filter (fun k => !(k == FaultKind.ok))).length

/-- Dropping the consumed entry cannot increase the fault count. -/
theorem faultCount_tail_le (l : List FaultKind) :
    faultCount l.tail ≤ faultCount l := by
  cases l with
  | nil => exact Nat.le_refl _
  | cons k t =>
    unfold faultCount
    rw [List.tail_cons, List.filter_cons]
    cases k <;> simp

/-- Consuming a healthy entry keeps the fault count. -/
theorem faultCount_tail_of_head_ok {l : List FaultKind}
    (h : l.headD FaultKind.ok = FaultKind.ok) :
    faultCount l.tail = faultCount l := by
  cases l with
  | nil => rfl
  | cons k t =>
    rw [List.headD_cons] at h
    subst h
    unfold faultCount
    rw [List.tail_cons, List.filter_cons]
    rfl

/-- A schedule with no faulty entries has a healthy next call. -/
theorem nextFault_of_count_zero {s : DBState} (h : faultCount s.faults = 0) :
    nextFault s = FaultKind.ok := by
  unfold nextFault
  cases hl : s.faults with
  | nil => rfl
  | cons k t =>
    rw [hl] at h
    unfold faultCount at h
    rw [List.filter_cons] at h
    cases k with
    | ok => rfl
    | noDb => simp at h
    | reject => simp at h

/-- A faulty next call is an entry of the schedule, and consuming it
leaves a fault-free remainder when at most one fault was scheduled. -/
theorem nextFault_mem {s : DBState} {k : FaultKind}
    (hk : nextFault s = k) (hne : k ≠ FaultKind.ok) :
    k ∈ s.faults ∧
      (faultCount s.faults ≤ 1 → faultCount s.faults.tail = 0) := by
  unfold nextFault at hk
  cases hl : s.faults with
  | nil =>
    rw [hl, List.headD_nil] at hk
    exact absurd hk.symm hne
  | cons kk t =>
    rw [hl, List.headD_cons] at hk
    subst hk
    refine ⟨List.mem_cons_self _ _, ?_⟩
    intro hle
    unfold faultCount at hle ⊢
    rw [List.filter_cons] at hle
    rw [List.tail_cons]
    cases kk with
    | ok => exact absurd rfl hne
    | noDb => simpa using hle
    | reject => simpa using hle

/-- The row update of `updateTrainingDocument` preserves row ids. -/
theorem applyDocUpdate_id (id : Nat) (u : DocUpdate) (d : DocRow) :
    (applyDocUpdate id u d).id = d.id := by
  unfold applyDocUpdate
  by_cases h : d.id = id
  · rw [if_pos h]
  · rw [if_neg h]

/-- Searching by id commutes with an id-preserving row map. -/
theorem find?_map_of_id {f : DocRow → DocRow}
    (hid : ∀ d, (f d).id = d.id) (id : Nat) :
    ∀ docs : List DocRow,
      (docs.map f).find? (fun d => d.id == id)
        = (docs.find? (fun d => d.id == id)).map f := by
  intro docs
  induction docs with
  | nil => rfl
  | cons d ds ih =>
    rw [List.map_cons, List.find?_cons, List.find?_cons]
    by_cases h : d.id = id
    · rw [show ((f d).id == id) = true by simp [hid d, h],
        show (d.id == id) = true by simp [h]]
      rfl
    · rw [show ((f d).id == id) = false by simp [hid d, h],
        show (d.id == id) = false by simp [h]]
      exact ih

/-- After the `failed`/`completed`/`processing` write maps the table, the
first row with the document's id carries the written status. -/
theorem statusOf_after_map (docs : List DocRow) (id : Nat) (st : String)
    (ck : Option Int)
    (hd : (docs.find? (fun d => d.id == id)).isSome) :
    ((docs.map (applyDocUpdate id { status := some st, chunkCount := ck })).find?
        (fun d => d.id == id)).map (fun d => d.status) = some st := by
  rw [find?_map_of_id (applyDocUpdate_id id _) id docs]
  rcases hf : docs.find? (fun d => d.id == id) with _ | d
  · rw [hf] at hd
    simp at hd
  · have hpd := List.find?_some hf
    have hdd : d.id = id := by simpa using hpd
    rw [hf]
    show some (applyDocUpdate id { status := some st, chunkCount := ck } d).status
      = some st
    unfold applyDocUpdate
    rw [if_pos hdd]
    rfl

/-- A healthy config load succeeds and touches neither documents nor the
remaining schedule beyond its own entry. -/
theorem getOrCreateRagConfig_ok (agentId : Nat) (s : DBState)
    (hf : nextFault s = FaultKind.ok) :
    ∃ cfg s1, getOrCreateRagConfig agentId s = (Except.ok cfg, s1) ∧
      s1.docs = s.docs ∧ s1.faults = s.faults.tail := by
  unfold getOrCreateRagConfig
  rw [hf]
  dsimp only
  cases hc : (popState s).configs.find? (fun c => c.agentId == agentId) with
  | none => exact ⟨_, _, rfl, rfl, rfl⟩
  | some c => exact ⟨c, popState s, rfl, rfl, rfl⟩

/-- A healthy document update writes the mapped table. -/
theorem updateTrainingDocument_ok (id : Nat) (u : DocUpdate) (s : DBState)
    (hf : nextFault s = FaultKind.ok) :
    updateTrainingDocument id u s
      = (Except.ok ((s.docs.map (applyDocUpdate id u)).find?
          (fun d => d.id == id)),
         { popState s with docs := s.docs.map (applyDocUpdate id u) }) := by
  unfold updateTrainingDocument
  rw [hf]
  rfl

/-- A document update against an unavailable database silently does
nothing (the code returns `undefined`). -/
theorem updateTrainingDocument_noDb (id : Nat) (u : DocUpdate) (s : DBState)
    (hf : nextFault s = FaultKind.noDb) :
    updateTrainingDocument id u s = (Except.ok none, popState s) := by
  unfold updateTrainingDocument
  rw [hf]

/-- A rejected document update throws the driver error. -/
theorem updateTrainingDocument_reject (id : Nat) (u : DocUpdate) (s : DBState)
    (hf : nextFault s = FaultKind.reject) :
    updateTrainingDocument id u s = (Except.error Err.driver, popState s) := by
  unfold updateTrainingDocument
  rw [hf]

/-- A healthy embedding insert succeeds and does not touch documents. -/
theorem createVectorEmbedding_ok (r : InsertEmbed) (s : DBState)
    (hf : nextFault s = FaultKind.ok) :
    ∃ row s', createVectorEmbedding r s = (Except.ok row, s') ∧
      s'.docs = s.docs ∧ s'.faults = s.faults.tail := by
  unfold createVectorEmbedding
  rw [hf]
  exact ⟨_, _, rfl, rfl, rfl⟩

/-- An embedding insert against an unavailable database throws the code's
own error. -/
theorem createVectorEmbedding_noDb (r : InsertEmbed) (s : DBState)
    (hf : nextFault s = FaultKind.noDb) :
    createVectorEmbedding r s = (Except.error Err.dbUnavailable, popState s) := by
  unfold createVectorEmbedding
  rw [hf]

/-- A rejected embedding insert throws the driver error. -/
theorem createVectorEmbedding_reject (r : InsertEmbed) (s : DBState)
    (hf : nextFault s = FaultKind.reject) :
    createVectorEmbedding r s = (Except.error Err.driver, popState s) := by
  unfold createVectorEmbedding
  rw [hf]

/-- The chunk-writing loop under a schedule with at most one fault: it
either completes (documents untouched, at most one fault left), or throws
the error of its one faulty insert (documents untouched, no fault left,
and the error matches the scheduled fault kind). -/
theorem writeChunks_cases (documentId agentId : Nat) :
    ∀ (chunks : List JSStr) (i : Nat) (s : DBState),
      faultCount s.faults ≤ 1 →
      (∃ s3, writeChunks documentId agentId chunks i s = (Except.ok (), s3) ∧
        s3.docs = s.docs ∧ faultCount s3.faults ≤ 1 ∧ s3.faults ⊆ s.faults) ∨
      (∃ e s3, writeChunks documentId agentId chunks i s
          = (Except.error e, s3) ∧
        s3.docs = s.docs ∧ faultCount s3.faults = 0 ∧
        ((e = Err.dbUnavailable ∧ FaultKind.noDb ∈ s.faults) ∨
         (e = Err.driver ∧ FaultKind.reject ∈ s.faults))) := by
  intro chunks
  induction chunks with
  | nil =>
    intro i s hcnt
    left
    exact ⟨s, rfl, rfl, hcnt, fun x hx => hx⟩
  | cons c rest ih =>
    intro i s hcnt
    unfold writeChunks
    cases hf : nextFault s with
    | ok =>
      obtain ⟨row, s', hcv, hdocs, hfaults⟩ := createVectorEmbedding_ok
        { documentId := documentId, agentId := agentId, chunkIndex := i,
          content := c, embedding := some (createSimpleEmbedding c) } s hf
      rw [hcv]
      dsimp only
      have hcnt' : faultCount s'.faults ≤ 1 := by
        rw [hfaults]
        exact Nat.le_trans (faultCount_tail_le _) hcnt
      have hsubset : s'.faults ⊆ s.faults := by
        rw [hfaults]
        exact (List.tail_suffix _).subset
      rcases ih (i + 1) s' hcnt' with ⟨s3, hw, hd3, hc3, hsb3⟩ |
          ⟨e, s3, hw, hd3, hc3, hsrc⟩
      · left
        exact ⟨s3, hw, by rw [hd3, hdocs], hc3,
          fun x hx => hsubset (hsb3 hx)⟩
      · right
        refine ⟨e, s3, hw, by rw [hd3, hdocs], hc3, ?_⟩
        rcases hsrc with ⟨he, hm⟩ | ⟨he, hm⟩
        · exact Or.inl ⟨he, hsubset hm⟩
        · exact Or.inr ⟨he, hsubset hm⟩
    | noDb =>
      rw [createVectorEmbedding_noDb
        { documentId := documentId, agentId := agentId, chunkIndex := i,
          content := c, embedding := some (createSimpleEmbedding c) } s hf]
      dsimp only
      obtain ⟨hmem, hzero⟩ := nextFault_mem hf
        (fun hh => FaultKind.noConfusion hh)
      right
      exact ⟨Err.dbUnavailable, popState s, rfl, rfl, hzero hcnt,
        Or.inl ⟨rfl, hmem⟩⟩
    | reject =>
      rw [createVectorEmbedding_reject
        { documentId := documentId, agentId := agentId, chunkIndex := i,
          content := c, embedding := some (createSimpleEmbedding c) } s hf]
      dsimp only
      obtain ⟨hmem, hzero⟩ := nextFault_mem hf
        (fun hh => FaultKind.noConfusion hh)
      right
      exact ⟨Err.driver, popState s, rfl, rfl, hzero hcnt,
        Or.inr ⟨rfl, hmem⟩⟩

/-- When storage is healthy for its write and the document exists, the
catch block marks the document `failed` and rethrows the caught error
unchanged. -/
theorem rethrowAfterMarkFailed_ok (e : Err) (documentId : Nat) (s : DBState)
    (hf : nextFault s = FaultKind.ok)
    (hd : (s.docs.find? (fun d => d.id == documentId)).isSome) :
    ∃ s4, rethrowAfterMarkFailed e documentId s = (Except.error e, s4) ∧
      statusOf s4 documentId = some "failed" := by
  refine ⟨{ popState s with
    docs := s.docs.map (applyDocUpdate documentId (docUpdateStatus "failed")) },
    ?_, ?_⟩
  · unfold rethrowAfterMarkFailed
    rw [updateTrainingDocument_ok documentId (docUpdateStatus "failed") s hf]
  · unfold statusOf
    exact statusOf_after_map s.docs documentId "failed" none hd

/-- C9: if a step of `processDocumentForRAG` after the successful
`processing` status write throws (under a schedule with at most one
transient storage fault, so the recovery write can reach storage), the
document's status ends as `failed` — never `completed` — and the
propagated error is the original one raised by the faulty step
(`Database not available` for a vanished handle, the driver's error for a
rejected query). -/
theorem c9_indexer_failure (documentId agentId : Nat) (content : JSStr)
    (s : DBState) (e : Err) (s' : DBState)
    (hd : (s.docs.find? (fun d => d.id == documentId)).isSome)
    (hf0 : s.faults.headD FaultKind.ok = FaultKind.ok)
    (hf1 : s.faults.tail.headD FaultKind.ok = FaultKind.ok)
    (hcount : faultCount s.faults ≤ 1)
    (hrun : processDocumentForRAG documentId agentId content s
      = (Except.error e, s')) :
    statusOf s' documentId = some "failed" ∧
    ((e = Err.dbUnavailable ∧ FaultKind.noDb ∈ s.faults) ∨
     (e = Err.driver ∧ FaultKind.reject ∈ s.faults)) := by
  obtain ⟨cfg, s1, h1, h1docs, h1faults⟩ := getOrCreateRagConfig_ok agentId s hf0
  have hf1' : nextFault s1 = FaultKind.ok := by
    unfold nextFault
    rw [h1faults]
    exact hf1
  have h2 := updateTrainingDocument_ok documentId
    (docUpdateStatus "processing") s1 hf1'
  have hrun' := (processDocumentForRAG_eq_of_ok_start documentId agentId
    content s cfg s1 h1 _ _ h2 _ rfl).symm.trans hrun
  set s2 : DBState :=
    { popState s1 with
      docs := s1.docs.map (applyDocUpdate documentId (docUpdateStatus "processing")) }
    with hs2def
  have hs2docs : s2.docs
      = s1.docs.map (applyDocUpdate documentId (docUpdateStatus "processing")) := rfl
  have hs2faults : s2.faults = s1.faults.tail := rfl
  have hcnt2 : faultCount s2.faults ≤ 1 := by
    rw [hs2faults, faultCount_tail_of_head_ok (by rw [h1faults]; exact hf1),
      h1faults, faultCount_tail_of_head_ok hf0]
    exact hcount
  have hsub2 : s2.faults ⊆ s.faults := by
    rw [hs2faults, h1faults]
    intro x hx
    exact (List.tail_suffix _).subset ((List.tail_suffix _).subset hx)
  have hd2 : (s2.docs.find? (fun d => d.id == documentId)).isSome := by
    rw [hs2docs, h1docs,
      find?_map_of_id (applyDocUpdate_id documentId (docUpdateStatus "processing"))
        documentId, Option.isSome_map']
    exact hd
  rcases writeChunks_cases documentId agentId
      (chunkText content (jsOrZ cfg.chunkSize 512).toNat
        (jsOrZ cfg.chunkOverlap 50).toNat) 0 s2 hcnt2 with
    ⟨s3, hw, hd3, hc3, hsb3⟩ | ⟨e3, s3, hw, hd3, hc3, hsrc⟩
  · -- the chunk loop completed; only the completed-write can have thrown
    rw [hw] at hrun'
    dsimp only at hrun'
    have hd3' : (s3.docs.find? (fun d => d.id == documentId)).isSome := by
      rw [hd3]
      exact hd2
    cases hfc : nextFault s3 with
    | ok =>
      rw [updateTrainingDocument_ok documentId _ s3 hfc] at hrun'
      dsimp only at hrun'
      simp at hrun'
    | noDb =>
      rw [updateTrainingDocument_noDb documentId _ s3 hfc] at hrun'
      dsimp only at hrun'
      simp at hrun'
    | reject =>
      rw [updateTrainingDocument_reject documentId _ s3 hfc] at hrun'
      dsimp only at hrun'
      obtain ⟨hmem3, hzero3⟩ := nextFault_mem hfc
        (fun hh => FaultKind.noConfusion hh)
      have hfo : nextFault (popState s3) = FaultKind.ok :=
        nextFault_of_count_zero (hzero3 hc3)
      obtain ⟨s4, hre, hst⟩ := rethrowAfterMarkFailed_ok Err.driver
        documentId (popState s3) hfo hd3'
      rw [hre] at hrun'
      injection hrun' with hih1 hih2
      injection hih1 with hee
      refine ⟨?_, Or.inr ⟨hee.symm, hsub2 (hsb3 hmem3)⟩⟩
      rw [← hih2]
      exact hst
  · -- the chunk loop threw; the catch block can reach storage
    rw [hw] at hrun'
    dsimp only at hrun'
    have hfo : nextFault s3 = FaultKind.ok := nextFault_of_count_zero hc3
    have hd3' : (s3.docs.find? (fun d => d.id == documentId)).isSome := by
      rw [hd3]
      exact hd2
    obtain ⟨s4, hre, hst⟩ := rethrowAfterMarkFailed_ok e3 documentId s3
      hfo hd3'
    rw [hre] at hrun'
    injection hrun' with hih1 hih2
    injection hih1 with hee
    constructor
    · rw [← hih2]
      exact hst
    · rcases hsrc with ⟨he3, hm⟩ | ⟨he3, hm⟩
      · exact Or.inl ⟨hee.symm.trans he3, hsub2 hm⟩
      · exact Or.inr ⟨hee.symm.trans he3, hsub2 hm⟩

/-- A pending training document for the C9 witness run. -/
def c9Doc : DocRow :=
  { id := 1, agentId := 1, userId := 1, content := [104, 105],
    status := "pending", chunkCount := 0, createdAt := 0 }

/-- The agent's configuration (schema defaults) for the C9 witness run. -/
def c9Cfg : ConfigRow :=
  { id := 1, agentId := 1, enabled := 1, chunkSize := some 512,
    chunkOverlap := some 50, topK := some 3,
    similarityThreshold := some (7 / 10) }

/-- Storage whose third call (the first chunk write) is rejected by the
driver; the config load, the `processing` write and the recovery write
are healthy. -/
def c9FaultState : DBState :=
  { docs := [c9Doc], embeds := [], configs := [c9Cfg], nextId := 2,
    now := 1, faults := [FaultKind.ok, FaultKind.ok, FaultKind.reject] }

/-- The document row as left by the failed run. -/
def c9DocFailed : DocRow :=
  { id := 1, agentId := 1, userId := 1, content := [104, 105],
    status := "failed", chunkCount := 0, createdAt := 0 }

/-- The state after the failed run: the document is marked `failed`, no
chunk was stored. -/
def c9FinalState : DBState :=
  { docs := [c9DocFailed], embeds := [], configs := [c9Cfg], nextId := 2,
    now := 1, faults := [] }

/-- Witness for C9 at a concrete input: the rejected chunk write makes
the run throw the driver error and leaves the document `failed`. -/
theorem c9_indexer_failure_witness :
    processDocumentForRAG 1 1 [104, 105] c9FaultState
      = (Except.error Err.driver, c9FinalState) ∧
    statusOf c9FinalState 1 = some "failed" := by
  have hch : chunkText ([104, 105] : JSStr) (jsOrZ c9Cfg.chunkSize 512).toNat
      (jsOrZ c9Cfg.chunkOverlap 50).toNat = [[104, 105]] :=
    chunkText_short (by decide) (by decide)
  have hfull : processDocumentForRAG 1 1 [104, 105] c9FaultState
      = (Except.error Err.driver, c9FinalState) := by
    rw [processDocumentForRAG_eq_of_ok_start 1 1 [104, 105]
      c9FaultState c9Cfg _ rfl _ _ rfl [[104, 105]] hch]
    rfl
  refine ⟨hfull, ?_⟩
  exact (c9_indexer_failure 1 1 [104, 105] c9FaultState Err.driver
    c9FinalState rfl rfl rfl (by decide) hfull).1
